import Mathlib

/-!
Verification of the tyl-qdrant-adapter filter compiler and schema migration
manager against its specification.  The Rust source (src/lib.rs, src/migration.rs,
src/mock.rs) is shallowly embedded: pure functions become Lean functions,
the stateful migration manager becomes explicit state passing over the
in-repository mock backend state, and `serde_json::Value` becomes the `Json`
inductive below.  Floating point numbers (`f64`) are embedded as rationals;
the code under verification only moves them around, compares option-hood and
truncates them to integers, so no rounding behaviour is lost.
-/

namespace TylQdrant

/-- Embedding of `serde_json::Number`: either an integer (a JSON number for
which `is_i64` holds) or a float (one for which `is_f64` holds).  `u64`
values beyond `i64::MAX` are not needed by any claim and are omitted. -/
inductive JsonNum where
  | int (i : Int)
  | float (q : ℚ)
deriving DecidableEq

/-- Embedding of `serde_json::Value`.  An object is its ordered list of
entries (a `serde_json::Map` has unique keys; iteration and `get` agree with
association-list lookup on such lists). -/
inductive Json where
  | null
  | bool (b : Bool)
  | num (n : JsonNum)
  | str (s : String)
  | arr (elems : List Json)
  | obj (fields : List (String × Json))

/-- `Number::as_f64`: every embedded number has a float value. -/
def JsonNum.asF64 : JsonNum → ℚ
  | .int i => (i : ℚ)
  | .float q => q

/-- `Number::as_i64`: only integers. -/
def JsonNum.asI64 : JsonNum → Option Int
  | .int i => some i
  | .float _ => none

/-- `Number::is_i64`. -/
def JsonNum.isI64 : JsonNum → Bool
  | .int _ => true
  | .float _ => false

/-- Rust `f as i64`: truncation toward zero, saturating at the i64 range. -/
def f64AsI64 (q : ℚ) : Int :=
  max (-(2 ^ 63)) (min (2 ^ 63 - 1) (if 0 ≤ q then ⌊q⌋ else ⌈q⌉))

/-- `Value::as_f64`. -/
def Json.asF64 : Json → Option ℚ
  | .num n => some n.asF64
  | _ => none

/-- `Value::as_bool`. -/
def Json.asBool : Json → Option Bool
  | .bool b => some b
  | _ => none

/-- `Map::get` on a JSON object entry list: first entry with the key. -/
def objGet (fields : List (String × Json)) (key : String) : Option Json :=
  match fields with
  | [] => none
  | (k, v) :: rest => if k = key then some v else objGet rest key

/-- `Map::contains_key`. -/
def objContains (fields : List (String × Json)) (key : String) : Bool :=
  (objGet fields key).isSome

/-- Embedding of the TYL error values produced by the code under
verification.  The error constructors (`vector_errors::*`, `TylError::*`)
live in external TYL crates; each is modelled as one variant carrying the
message material the code passes to it. -/
inductive TylError where
  | validation (field : String) (message : String)
  | notFound (resource : String) (id : String)
  | database (message : String)
  | storageFailed (message : String)
  | connectionFailed (message : String)
  | collectionNotFound (name : String)
  | vectorNotFound (message : String)
  | invalidDimension (expected : Nat) (actual : Nat)
deriving DecidableEq

/-- Substring test used for `e.to_string().contains(..)` checks; the display
string of the modelled errors contains the message verbatim, so the check is
performed on the message material. -/
def charsPrefix : List Char → List Char → Bool
  | [], _ => true
  | _ :: _, [] => false
  | a :: as, b :: bs => a = b && charsPrefix as bs

def charsInfix (pat : List Char) : List Char → Bool
  | [] => charsPrefix pat []
  | c :: rest => charsPrefix pat (c :: rest) || charsInfix pat rest

def strContains (s pat : String) : Bool :=
  charsInfix pat.data s.data

/-- Whether the display of an error contains the given pattern
(`e.to_string().contains(pat)`). -/
def errContains (e : TylError) (pat : String) : Bool :=
  match e with
  | .validation f m => strContains (f ++ m) pat
  | .notFound r i => strContains (r ++ i) pat
  | .database m => strContains m pat
  | .storageFailed m => strContains m pat
  | .connectionFailed m => strContains m pat
  | .collectionNotFound n => strContains n pat
  | .vectorNotFound m => strContains m pat
  | .invalidDimension _ _ => false

/-! ## Qdrant query model

Embedding of the `qdrant_client` condition tree as the code under
verification populates it.  The geo, values-count and datetime fields of
`FieldCondition` are `None` at every construction site in the source and are
omitted from the embedding. -/

/-- `qdrant::Range`. -/
structure RangeCond where
  gte : Option ℚ
  lte : Option ℚ
  gt : Option ℚ
  lt : Option ℚ
deriving DecidableEq

/-- `qdrant::r#match::MatchValue` variants used by the source. -/
inductive MatchValue where
  | keyword (s : String)
  | integer (i : Int)
  | boolean (b : Bool)
deriving DecidableEq

/-- `qdrant::FieldCondition` (the fields the source ever sets). -/
structure FieldCondition where
  key : String
  matchValue : Option MatchValue
  range : Option RangeCond
  isEmpty : Option Bool
  isNull : Option Bool
deriving DecidableEq

/-- `qdrant::Condition`: the source only ever uses the `Field` variant of
`condition_one_of`. -/
structure Condition where
  field : FieldCondition
deriving DecidableEq

/-- `qdrant::Filter` (the `min_should` field is `None` at every construction
site in the source and is omitted). -/
structure Filter where
  should : List Condition
  must : List Condition
  mustNot : List Condition
deriving DecidableEq

/-! ## Filter compiler (src/lib.rs) -/

/-- The loop body state of `build_range_condition`: the four mutable bound
variables, folded over the operator object entries in order. -/
def rangeFold : List (String × Json) → Option ℚ → Option ℚ → Option ℚ → Option ℚ →
    Except TylError RangeCond
  | [], gte, lte, gt, lt => .ok ⟨gte, lte, gt, lt⟩
  | (op, value) :: rest, gte, lte, gt, lt =>
    match value.asF64 with
    | none => .error (TylError.invalidDimension 0 0)
    | some numVal =>
      if op = "$gte" then rangeFold rest (some numVal) lte gt lt
      else if op = "$lte" then rangeFold rest gte (some numVal) gt lt
      else if op = "$gt" then rangeFold rest gte lte (some numVal) lt
      else if op = "$lt" then rangeFold rest gte lte gt (some numVal)
      else rangeFold rest gte lte gt lt

/-- `QdrantAdapter::build_range_condition`. -/
def build_range_condition (field : String) (obj : List (String × Json)) :
    Except TylError Condition :=
  match rangeFold obj none none none none with
  | .error e => .error e
  | .ok range =>
    .ok ⟨{ key := field, matchValue := none, range := some range,
           isEmpty := none, isNull := none }⟩

/-- The match-value selection applied to the first array element inside
`build_in_condition`. -/
def inMatchValue : Json → Option MatchValue
  | .str s => some (.keyword s)
  | .num (.int i) => some (.integer i)
  | .num (.float q) => some (.integer (f64AsI64 q))
  | .bool b => some (.boolean b)
  | _ => none

/-- `QdrantAdapter::build_in_condition`. -/
def build_in_condition (field : String) (obj : List (String × Json)) :
    Except TylError Condition :=
  match objGet obj "$in" with
  | some (.arr values) =>
    match values with
    | firstVal :: _ =>
      match inMatchValue firstVal with
      | some mv =>
        .ok ⟨{ key := field, matchValue := some mv, range := none,
               isEmpty := none, isNull := none }⟩
      | none => .error (TylError.invalidDimension 0 0)
    | [] => .error (TylError.invalidDimension 0 0)
  | _ => .error (TylError.invalidDimension 0 0)

/-- `QdrantAdapter::build_not_equals_condition`: unconditionally a
not-implemented error. -/
def build_not_equals_condition (_field : String) (_obj : List (String × Json)) :
    Except TylError Condition :=
  .error (TylError.storageFailed "$ne operator not yet implemented")

/-- `QdrantAdapter::build_exists_condition`. -/
def build_exists_condition (field : String) (obj : List (String × Json)) :
    Except TylError Condition :=
  let exists_ := ((objGet obj "$exists").bind Json.asBool).getD true
  .ok ⟨{ key := field, matchValue := none, range := none,
         isEmpty := some (!exists_), isNull := some (!exists_) }⟩

/-- Embedding of `tyl_vector_port::SearchParams` (the fields the source
reads). -/
structure SearchParams where
  limit : Nat
  threshold : Option ℚ
  filters : List (String × Json)
  includeVectors : Bool

/-- Modelled from the spec: `SearchParams::with_limit` builds search
parameters with the given limit and no filters (the spec describes search
parameters as `{limit, score_threshold, compiled_filter, include_vectors}`;
the constructor itself lives in the external tyl-vector-port crate). -/
def SearchParams.with_limit (n : Nat) : SearchParams :=
  { limit := n, threshold := none, filters := [], includeVectors := false }

/-- One iteration of the `build_filter` loop: the condition produced for a
single `(field, value)` filter entry, `none` when the entry is skipped by a
`continue`. -/
def filterEntryCondition (field : String) (value : Json) : Option Condition :=
  match value with
  | .obj obj =>
    if objContains obj "$gte" || objContains obj "$lte" ||
       objContains obj "$gt" || objContains obj "$lt" then
      match build_range_condition field obj with
      | .ok cond => some cond
      | .error _ => none
    else if objContains obj "$in" then
      match build_in_condition field obj with
      | .ok cond => some cond
      | .error _ => none
    else if objContains obj "$ne" then
      match build_not_equals_condition field obj with
      | .ok cond => some cond
      | .error _ => none
    else if objContains obj "$exists" then
      match build_exists_condition field obj with
      | .ok cond => some cond
      | .error _ => none
    else none
  | .str s =>
    some ⟨{ key := field, matchValue := some (.keyword s), range := none,
            isEmpty := none, isNull := none }⟩
  | .num n =>
    match n.asI64 with
    | some intVal =>
      some ⟨{ key := field, matchValue := some (.integer intVal), range := none,
              isEmpty := none, isNull := none }⟩
    | none =>
      some ⟨{ key := field, matchValue := some (.integer (f64AsI64 n.asF64)),
              range := none, isEmpty := none, isNull := none }⟩
  | .bool b =>
    some ⟨{ key := field, matchValue := some (.boolean b), range := none,
            isEmpty := none, isNull := none }⟩
  | _ => none

/-- `QdrantAdapter::build_filter`. -/
def build_filter (params : SearchParams) : Option Filter :=
  if params.filters.isEmpty then none
  else
    let mustConditions :=
      params.filters.filterMap (fun e => filterEntryCondition e.1 e.2)
    if mustConditions.isEmpty then none
    else some { should := [], must := mustConditions, mustNot := [] }

/-- The per-entry match value of `build_complex_filter`'s
`build_condition_list` closure: floats (non-`i64` numbers), null, arrays and
objects produce no condition. -/
def complexMatchValue : Json → Option MatchValue
  | .str s => some (.keyword s)
  | .num n => if n.isI64 then n.asI64.map .integer else none
  | .bool b => some (.boolean b)
  | _ => none

/-- The `build_condition_list` closure of `build_complex_filter`. -/
def build_condition_list (conditions : List (String × Json)) : List Condition :=
  conditions.filterMap (fun e =>
    (complexMatchValue e.2).map (fun mv =>
      ⟨{ key := e.1, matchValue := some mv, range := none,
         isEmpty := none, isNull := none }⟩))

/-- `QdrantAdapter::build_complex_filter`. -/
def build_complex_filter (mustConditions shouldConditions mustNotConditions :
    List (String × Json)) : Option Filter :=
  let must := build_condition_list mustConditions
  let should := build_condition_list shouldConditions
  let mustNot := build_condition_list mustNotConditions
  if must.isEmpty && should.isEmpty && mustNot.isEmpty then none
  else some { should := should, must := must, mustNot := mustNot }

/-! ## Schema migration data model (src/migration.rs) -/

/-- Embedding of `semver::Version` restricted to the release triple: the
claims and the repository only build plain `major.minor.patch` versions, so
pre-release and build metadata (empty in all of them) are omitted; precedence
is the standard lexicographic order on the triple. -/
structure Version where
  major : Nat
  minor : Nat
  patch : Nat
deriving DecidableEq

/-- `semver::Version` display, used as the record id of a persisted
migration. -/
def versionToString (v : Version) : String :=
  toString v.major ++ "." ++ toString v.minor ++ "." ++ toString v.patch

/-- Semantic-version precedence as a boolean comparison, the order used by
`migrations.sort_by(|a, b| a.version.cmp(&b.version))`. -/
def versionLe (a b : Version) : Bool :=
  if a.major ≠ b.major then decide (a.major < b.major)
  else if a.minor ≠ b.minor then decide (a.minor < b.minor)
  else decide (a.patch ≤ b.patch)

/-- Embedding of `tyl_vector_port::DistanceMetric` (external crate; the four
variants the adapter maps). -/
inductive DistanceMetric where
  | Cosine
  | Euclidean
  | DotProduct
  | Manhattan
deriving DecidableEq

/-- Modelled from the spec: `tyl_vector_port::CollectionConfig` is external
to this repository; the spec describes a collection as a name, a
dimensionality and a distance metric, and `CollectionConfig::new` as plain
construction (its validation never fails on the configurations this
repository builds, so it is embedded as total). -/
structure CollectionConfig where
  name : String
  dimension : Nat
  distance_metric : DistanceMetric
deriving DecidableEq

/-- `migration::IndexType`. -/
inductive IndexType where
  | Text
  | Numeric
  | Keyword
  | Geo
  | Boolean
deriving DecidableEq

/-- `migration::CollectionChange`. -/
inductive CollectionChange where
  | CreateCollection (config : CollectionConfig)
  | DeleteCollection (name : String)
  | UpdateCollection (name : String) (dimension_change : Option Nat)
      (distance_metric_change : Option DistanceMetric)
  | RenameCollection (old_name : String) (new_name : String)
  | AddIndex (collection : String) (field : String) (index_type : IndexType)
  | RemoveIndex (collection : String) (field : String)
deriving DecidableEq

/-- `migration::MigrationMetadata`.  The `chrono::DateTime<Utc>` timestamp is
external to the repository and round-trips through serde as a string; it is
embedded as that string. -/
structure MigrationMetadata where
  author : String
  created_at : String
  description : String
  dependencies : List Version
  reversible : Bool
  breaking_change : Bool
deriving DecidableEq

/-- `migration::VectorOperation`. -/
inductive VectorOperation where
  | StoreVector
  | GetVector
  | SearchSimilar
  | DeleteVector
  | CreateCollection
  | DeleteCollection
  | ListCollections
deriving DecidableEq

/-- `migration::ResponseStatus`. -/
inductive ResponseStatus where
  | Success
  | Error
  | NotFound
deriving DecidableEq

/-- `migration::VectorRequest`. -/
structure VectorRequest where
  operation : VectorOperation
  collection : String
  parameters : Json

/-- `migration::VectorResponse`. -/
structure VectorResponse where
  status : ResponseStatus
  data : Option Json
  error : Option String

/-- `migration::PactInteraction`. -/
structure PactInteraction where
  description : String
  request : VectorRequest
  response : VectorResponse

/-- `migration::PactContract`. -/
structure PactContract where
  consumer : String
  provider : String
  contract_path : String
  interactions : List PactInteraction

/-- `migration::SchemaMigration`. -/
structure SchemaMigration where
  version : Version
  name : String
  collection_changes : List CollectionChange
  metadata : MigrationMetadata
  pact_contracts : List PactContract

/-- `migration::ChangeResult`. -/
inductive ChangeResult where
  | CollectionCreated (name : String)
  | CollectionDeleted (name : String)
  | CollectionUpdated (name : String)
  | CollectionRenamed (old : String) (new : String)
  | IndexAdded (collection : String) (field : String) (index_type : IndexType)
  | IndexRemoved (collection : String) (field : String)
deriving DecidableEq

/-- `migration::MigrationResult`. -/
structure MigrationResult where
  version : Version
  applied_changes : List ChangeResult
  pact_validation_passed : Bool

/-! ## Serde embedding

`record_migration` persists `serde_json::to_value(migration)` and the history
reader applies `serde_json::from_value`.  The derived serde code is embedded
as an explicit encode/decode pair: structs become objects keyed by field
name, enums are externally tagged, unit variants are their name strings and
`Option` maps `None` to `null`.  The `semver::Version` payload is embedded
structurally (as its triple) rather than as semver's display string; no claim
inspects the wire shape, only that decoding recovers what was recorded. -/

def encodeVersion (v : Version) : Json :=
  .obj [("major", .num (.int v.major)), ("minor", .num (.int v.minor)),
        ("patch", .num (.int v.patch))]

def encodeDistanceMetric : DistanceMetric → Json
  | .Cosine => .str "Cosine"
  | .Euclidean => .str "Euclidean"
  | .DotProduct => .str "DotProduct"
  | .Manhattan => .str "Manhattan"

def encodeIndexType : IndexType → Json
  | .Text => .str "Text"
  | .Numeric => .str "Numeric"
  | .Keyword => .str "Keyword"
  | .Geo => .str "Geo"
  | .Boolean => .str "Boolean"

def encodeCollectionConfig (c : CollectionConfig) : Json :=
  .obj [("name", .str c.name), ("dimension", .num (.int c.dimension)),
        ("distance_metric", encodeDistanceMetric c.distance_metric)]

def encodeOption (f : α → Json) : Option α → Json
  | none => .null
  | some a => f a

def encodeCollectionChange : CollectionChange → Json
  | .CreateCollection config => .obj [("CreateCollection", encodeCollectionConfig config)]
  | .DeleteCollection name => .obj [("DeleteCollection", .str name)]
  | .UpdateCollection name dc dmc =>
    .obj [("UpdateCollection", .obj
      [("name", .str name),
       ("dimension_change", encodeOption (fun n => .num (.int n)) dc),
       ("distance_metric_change", encodeOption encodeDistanceMetric dmc)])]
  | .RenameCollection old_name new_name =>
    .obj [("RenameCollection", .obj
      [("old_name", .str old_name), ("new_name", .str new_name)])]
  | .AddIndex collection field index_type =>
    .obj [("AddIndex", .obj
      [("collection", .str collection), ("field", .str field),
       ("index_type", encodeIndexType index_type)])]
  | .RemoveIndex collection field =>
    .obj [("RemoveIndex", .obj
      [("collection", .str collection), ("field", .str field)])]

def encodeMetadata (m : MigrationMetadata) : Json :=
  .obj [("author", .str m.author), ("created_at", .str m.created_at),
        ("description", .str m.description),
        ("dependencies", .arr (m.dependencies.map encodeVersion)),
        ("reversible", .bool m.reversible),
        ("breaking_change", .bool m.breaking_change)]

def encodeVectorOperation : VectorOperation → Json
  | .StoreVector => .str "StoreVector"
  | .GetVector => .str "GetVector"
  | .SearchSimilar => .str "SearchSimilar"
  | .DeleteVector => .str "DeleteVector"
  | .CreateCollection => .str "CreateCollection"
  | .DeleteCollection => .str "DeleteCollection"
  | .ListCollections => .str "ListCollections"

def encodeResponseStatus : ResponseStatus → Json
  | .Success => .str "Success"
  | .Error => .str "Error"
  | .NotFound => .str "NotFound"

def encodeVectorRequest (r : VectorRequest) : Json :=
  .obj [("operation", encodeVectorOperation r.operation),
        ("collection", .str r.collection), ("parameters", r.parameters)]

def encodeVectorResponse (r : VectorResponse) : Json :=
  .obj [("status", encodeResponseStatus r.status),
        ("data", encodeOption id r.data),
        ("error", encodeOption Json.str r.error)]

def encodePactInteraction (i : PactInteraction) : Json :=
  .obj [("description", .str i.description),
        ("request", encodeVectorRequest i.request),
        ("response", encodeVectorResponse i.response)]

def encodePactContract (c : PactContract) : Json :=
  .obj [("consumer", .str c.consumer), ("provider", .str c.provider),
        ("contract_path", .str c.contract_path),
        ("interactions", .arr (c.interactions.map encodePactInteraction))]

def encodeMigration (m : SchemaMigration) : Json :=
  .obj [("version", encodeVersion m.version), ("name", .str m.name),
        ("collection_changes", .arr (m.collection_changes.map encodeCollectionChange)),
        ("metadata", encodeMetadata m.metadata),
        ("pact_contracts", .arr (m.pact_contracts.map encodePactContract))]

def asObj : Json → Except String (List (String × Json))
  | .obj fields => .ok fields
  | _ => .error "expected an object"

def asArr : Json → Except String (List Json)
  | .arr elems => .ok elems
  | _ => .error "expected an array"

def decodeStr : Json → Except String String
  | .str s => .ok s
  | _ => .error "expected a string"

def decodeBool : Json → Except String Bool
  | .bool b => .ok b
  | _ => .error "expected a boolean"

def decodeNat : Json → Except String Nat
  | .num (.int i) => if 0 ≤ i then .ok i.toNat else .error "expected a nonnegative integer"
  | _ => .error "expected an integer"

def getField (fields : List (String × Json)) (key : String) : Except String Json :=
  match objGet fields key with
  | some v => .ok v
  | none => .error ("missing field " ++ key)

def decodeOption (f : Json → Except String α) : Json → Except String (Option α)
  | .null => .ok none
  | j => (f j).map some

def decodeVersion (j : Json) : Except String Version := do
  let fields ← asObj j
  let major ← decodeNat (← getField fields "major")
  let minor ← decodeNat (← getField fields "minor")
  let patch ← decodeNat (← getField fields "patch")
  return ⟨major, minor, patch⟩

def decodeDistanceMetric (j : Json) : Except String DistanceMetric := do
  match ← decodeStr j with
  | "Cosine" => return .Cosine
  | "Euclidean" => return .Euclidean
  | "DotProduct" => return .DotProduct
  | "Manhattan" => return .Manhattan
  | _ => .error "unknown distance metric"

def decodeIndexType (j : Json) : Except String IndexType := do
  match ← decodeStr j with
  | "Text" => return .Text
  | "Numeric" => return .Numeric
  | "Keyword" => return .Keyword
  | "Geo" => return .Geo
  | "Boolean" => return .Boolean
  | _ => .error "unknown index type"

def decodeCollectionConfig (j : Json) : Except String CollectionConfig := do
  let fields ← asObj j
  let name ← decodeStr (← getField fields "name")
  let dimension ← decodeNat (← getField fields "dimension")
  let metric ← decodeDistanceMetric (← getField fields "distance_metric")
  return ⟨name, dimension, metric⟩

def decodeCollectionChange (j : Json) : Except String CollectionChange := do
  let fields ← asObj j
  match objGet fields "CreateCollection" with
  | some payload => return .CreateCollection (← decodeCollectionConfig payload)
  | none =>
  match objGet fields "DeleteCollection" with
  | some payload => return .DeleteCollection (← decodeStr payload)
  | none =>
  match objGet fields "UpdateCollection" with
  | some payload => do
    let p ← asObj payload
    let name ← decodeStr (← getField p "name")
    let dc ← decodeOption decodeNat (← getField p "dimension_change")
    let dmc ← decodeOption decodeDistanceMetric (← getField p "distance_metric_change")
    return .UpdateCollection name dc dmc
  | none =>
  match objGet fields "RenameCollection" with
  | some payload => do
    let p ← asObj payload
    return .RenameCollection (← decodeStr (← getField p "old_name"))
      (← decodeStr (← getField p "new_name"))
  | none =>
  match objGet fields "AddIndex" with
  | some payload => do
    let p ← asObj payload
    return .AddIndex (← decodeStr (← getField p "collection"))
      (← decodeStr (← getField p "field"))
      (← decodeIndexType (← getField p "index_type"))
  | none =>
  match objGet fields "RemoveIndex" with
  | some payload => do
    let p ← asObj payload
    return .RemoveIndex (← decodeStr (← getField p "collection"))
      (← decodeStr (← getField p "field"))
  | none => .error "unknown collection change variant"

def decodeMetadata (j : Json) : Except String MigrationMetadata := do
  let fields ← asObj j
  let author ← decodeStr (← getField fields "author")
  let created_at ← decodeStr (← getField fields "created_at")
  let description ← decodeStr (← getField fields "description")
  let deps ← (← asArr (← getField fields "dependencies")).mapM decodeVersion
  let reversible ← decodeBool (← getField fields "reversible")
  let breaking ← decodeBool (← getField fields "breaking_change")
  return ⟨author, created_at, description, deps, reversible, breaking⟩

def decodeVectorOperation (j : Json) : Except String VectorOperation := do
  match ← decodeStr j with
  | "StoreVector" => return .StoreVector
  | "GetVector" => return .GetVector
  | "SearchSimilar" => return .SearchSimilar
  | "DeleteVector" => return .DeleteVector
  | "CreateCollection" => return .CreateCollection
  | "DeleteCollection" => return .DeleteCollection
  | "ListCollections" => return .ListCollections
  | _ => .error "unknown vector operation"

def decodeResponseStatus (j : Json) : Except String ResponseStatus := do
  match ← decodeStr j with
  | "Success" => return .Success
  | "Error" => return .Error
  | "NotFound" => return .NotFound
  | _ => .error "unknown response status"

def decodeVectorRequest (j : Json) : Except String VectorRequest := do
  let fields ← asObj j
  let operation ← decodeVectorOperation (← getField fields "operation")
  let collection ← decodeStr (← getField fields "collection")
  let parameters ← getField fields "parameters"
  return ⟨operation, collection, parameters⟩

def decodeVectorResponse (j : Json) : Except String VectorResponse := do
  let fields ← asObj j
  let status ← decodeResponseStatus (← getField fields "status")
  let data ← decodeOption .ok (← getField fields "data")
  let err ← decodeOption decodeStr (← getField fields "error")
  return ⟨status, data, err⟩

def decodePactInteraction (j : Json) : Except String PactInteraction := do
  let fields ← asObj j
  let description ← decodeStr (← getField fields "description")
  let request ← decodeVectorRequest (← getField fields "request")
  let response ← decodeVectorResponse (← getField fields "response")
  return ⟨description, request, response⟩

def decodePactContract (j : Json) : Except String PactContract := do
  let fields ← asObj j
  let consumer ← decodeStr (← getField fields "consumer")
  let provider ← decodeStr (← getField fields "provider")
  let contract_path ← decodeStr (← getField fields "contract_path")
  let interactions ← (← asArr (← getField fields "interactions")).mapM decodePactInteraction
  return ⟨consumer, provider, contract_path, interactions⟩

def decodeMigration (j : Json) : Except String SchemaMigration := do
  let fields ← asObj j
  let version ← decodeVersion (← getField fields "version")
  let name ← decodeStr (← getField fields "name")
  let changes ← (← asArr (← getField fields "collection_changes")).mapM decodeCollectionChange
  let metadata ← decodeMetadata (← getField fields "metadata")
  let contracts ← (← asArr (← getField fields "pact_contracts")).mapM decodePactContract
  return ⟨version, name, changes, metadata, contracts⟩

/-! ## Mock backend (src/mock.rs)

The migration manager is generic over its backend; the repository's own
in-memory test double `MockQdrantAdapter` is the backend the embedding runs
it against.  Its two `HashMap`s become association lists; on the
unique-key states a `HashMap` can hold, lookup, overwrite-insert and removal
below agree with the `HashMap` operations the mock calls. -/

/-- `tyl_vector_port::Vector`: id, embedding, JSON metadata map. -/
structure Vector where
  id : String
  embedding : List ℚ
  metadata : List (String × Json)

/-- `tyl_vector_port::VectorSearchResult`. -/
structure VectorSearchResult where
  vector : Vector
  score : ℚ

/-- Association-list lookup (first entry wins, matching `HashMap::get` on
unique-key lists). -/
def alookup (l : List (String × α)) (k : String) : Option α :=
  match l with
  | [] => none
  | (k', v) :: rest => if k' = k then some v else alookup rest k

/-- `HashMap::insert`: replace the entry if the key is present, else append. -/
def ainsert (l : List (String × α)) (k : String) (v : α) : List (String × α) :=
  match l with
  | [] => [(k, v)]
  | (k', v') :: rest => if k' = k then (k, v) :: rest else (k', v') :: ainsert rest k v

/-- `HashMap::remove` (ignoring the returned value). -/
def aremove (l : List (String × α)) (k : String) : List (String × α) :=
  match l with
  | [] => []
  | (k', v') :: rest => if k' = k then aremove rest k else (k', v') :: aremove rest k

/-- The mock adapter's state: `collections` and `vectors` (collection name to
id-keyed record map). -/
structure Backend where
  collections : List (String × CollectionConfig)
  vectors : List (String × List (String × Vector))

mutual

/-- `serde_json::Value` equality, used by the mock's filter check.  Objects
are compared entrywise; a `serde_json::Map` is key-ordered with unique keys,
on which this agrees with serde's map equality. -/
def Json.beq : Json → Json → Bool
  | .null, .null => true
  | .bool a, .bool b => a == b
  | .num a, .num b => a == b
  | .str a, .str b => a == b
  | .arr a, .arr b => Json.beqList a b
  | .obj a, .obj b => Json.beqFields a b
  | _, _ => false

def Json.beqList : List Json → List Json → Bool
  | [], [] => true
  | a :: as, b :: bs => Json.beq a b && Json.beqList as bs
  | _, _ => false

def Json.beqFields : List (String × Json) → List (String × Json) → Bool
  | [], [] => true
  | (ka, va) :: as, (kb, vb) :: bs => ka = kb && Json.beq va vb && Json.beqFields as bs
  | _, _ => false

end

/-- The mock search filter check:
`params.filters.iter().all(|(k, v)| vector.metadata.get(k) == Some(v))`. -/
def matchesFilter (filters : List (String × Json)) (v : Vector) : Bool :=
  filters.all (fun e =>
    match alookup v.metadata e.1 with
    | some w => Json.beq w e.2
    | none => false)

/-- The mock search loop: push each matching record, stop once the
accumulated count reaches the limit. -/
def mockSearchGo (filters : List (String × Json)) (limit : Nat) (cnt : Nat) :
    List Vector → List VectorSearchResult
  | [] => []
  | v :: rest =>
    if matchesFilter filters v then
      if cnt + 1 ≥ limit then [⟨v, (9 : ℚ) / 10⟩]
      else ⟨v, (9 : ℚ) / 10⟩ :: mockSearchGo filters limit (cnt + 1) rest
    else mockSearchGo filters limit cnt rest

/-- `MockQdrantAdapter::store_vector`. -/
def mockStoreVector (collection : String) (v : Vector) (s : Backend) :
    Except TylError Unit × Backend :=
  let cur := (alookup s.vectors collection).getD []
  (.ok (), { s with vectors := ainsert s.vectors collection (ainsert cur v.id v) })

/-- `MockQdrantAdapter::get_vector`. -/
def mockGetVector (collection : String) (id : String) (s : Backend) :
    Except TylError (Option Vector) × Backend :=
  match alookup s.vectors collection with
  | some m => (.ok (alookup m id), s)
  | none => (.error (.collectionNotFound collection), s)

/-- `MockQdrantAdapter::search_similar`. -/
def mockSearchSimilar (collection : String) (_queryVector : List ℚ)
    (params : SearchParams) (s : Backend) :
    Except TylError (List VectorSearchResult) × Backend :=
  match alookup s.vectors collection with
  | some m => (.ok (mockSearchGo params.filters params.limit 0 (m.map (·.2))), s)
  | none => (.error (.collectionNotFound collection), s)

/-- `MockQdrantAdapter::delete_vector`. -/
def mockDeleteVector (collection : String) (id : String) (s : Backend) :
    Except TylError Unit × Backend :=
  match alookup s.vectors collection with
  | some m => (.ok (), { s with vectors := ainsert s.vectors collection (aremove m id) })
  | none => (.error (.collectionNotFound collection), s)

/-- `MockQdrantAdapter::create_collection`.  (The source message quotes the
name; the quotes are immaterial to the `contains("already exists")` check and
are omitted.) -/
def mockCreateCollection (config : CollectionConfig) (s : Backend) :
    Except TylError Unit × Backend :=
  if (alookup s.collections config.name).isSome then
    (.error (.storageFailed ("Collection " ++ config.name ++ " already exists")), s)
  else
    (.ok (), { collections := ainsert s.collections config.name config,
               vectors := ainsert s.vectors config.name [] })

/-- `MockQdrantAdapter::delete_collection` (always succeeds). -/
def mockDeleteCollection (collectionName : String) (s : Backend) :
    Except TylError Unit × Backend :=
  (.ok (), { collections := aremove s.collections collectionName,
             vectors := aremove s.vectors collectionName })

/-! ## Schema migration manager (src/migration.rs)

Each manager method takes the migration-collection name (the manager field
`migration_collection`) and threads the backend state explicitly.  `async`
sequencing becomes plain sequencing; the `?` operator becomes matching on the
`Except` component while keeping the state reached so far. -/

/-- `SchemaMigrationManager::initialize` (renamed: `initialize` is reserved
in Lean): create the tracking collection, treating an "already exists"
failure as success. -/
def initMigrationSystem (migColl : String) (s : Backend) :
    Except TylError Unit × Backend :=
  let migrationConfig : CollectionConfig := ⟨migColl, 256, .Cosine⟩
  match mockCreateCollection migrationConfig s with
  | (.ok _, s1) => (.ok (), s1)
  | (.error e, s1) =>
    if errContains e "already exists" then (.ok (), s1) else (.error e, s1)

/-- The per-record extraction step of `get_migration_history`: the
`"migration"` metadata entry, deserialized; records without one or with
undeserializable data are skipped. -/
def decodeRecord (v : Vector) : Option SchemaMigration :=
  match alookup v.metadata "migration" with
  | some migrationData => (decodeMigration migrationData).toOption
  | none => none

/-- `SchemaMigrationManager::get_migration_history`: scan the tracking
collection with limit 1000, deserialize, sort by version ascending. -/
def get_migration_history (migColl : String) (s : Backend) :
    Except TylError (List SchemaMigration) × Backend :=
  match mockSearchSimilar migColl (List.replicate 256 0)
      (SearchParams.with_limit 1000) s with
  | (.error e, s1) => (.error e, s1)
  | (.ok results, s1) =>
    let migrations := results.filterMap (fun r => decodeRecord r.vector)
    (.ok (migrations.mergeSort (fun a b => versionLe a.version b.version)), s1)

/-- The first dependency of the loop in `validate_dependencies` that is not
among the applied versions. -/
def firstMissing (deps : List Version) (applied : List Version) : Option Version :=
  match deps with
  | [] => none
  | d :: rest => if d ∈ applied then firstMissing rest applied else some d

/-- `SchemaMigrationManager::validate_dependencies`. -/
def validate_dependencies (migColl : String) (m : SchemaMigration) (s : Backend) :
    Except TylError Unit × Backend :=
  match get_migration_history migColl s with
  | (.error e, s1) => (.error e, s1)
  | (.ok history, s1) =>
    let applied := history.map (·.version)
    match firstMissing m.metadata.dependencies applied with
    | some d =>
      (.error (.validation "dependencies"
        ("Required migration " ++ versionToString d ++ " not found")), s1)
    | none => (.ok (), s1)

/-- `SchemaMigrationManager::validate_operation_result`. -/
def validate_operation_result (result : Except TylError α)
    (expected : VectorResponse) : Except TylError Unit :=
  match result, expected.status with
  | .ok _, .Success => .ok ()
  | .error _, .Error => .ok ()
  | .error _, .NotFound => .ok ()
  | .ok _, .Error => .error (.validation "pact" "Expected error but operation succeeded")
  | .ok _, .NotFound => .error (.validation "pact" "Expected not found but operation succeeded")
  | .error _, .Success => .error (.validation "pact" "Expected success but operation failed")

/-- `SchemaMigrationManager::validate_pact_interaction`: simulate the
interaction's operation against the live backend and compare outcome
classes.  `Vector::new` produces an empty metadata map. -/
def validate_pact_interaction (i : PactInteraction) (s : Backend) :
    Except TylError Unit × Backend :=
  match i.request.operation with
  | .CreateCollection =>
    let testConfig : CollectionConfig := ⟨"test_migration", 128, .Cosine⟩
    let (result, s1) := mockCreateCollection testConfig s
    (validate_operation_result result i.response, s1)
  | .StoreVector =>
    let testVector : Vector := ⟨"test", List.replicate 128 0, []⟩
    let (result, s1) := mockStoreVector i.request.collection testVector s
    (validate_operation_result result i.response, s1)
  | .SearchSimilar =>
    let (result, s1) := mockSearchSimilar i.request.collection
      (List.replicate 128 0) (SearchParams.with_limit 5) s
    match result with
    | .ok _ =>
      match i.response.status with
      | .Success => (.ok (), s1)
      | _ => (.error (.validation "pact" "Expected success but operation succeeded"), s1)
    | .error _ =>
      match i.response.status with
      | .Success => (.error (.validation "pact" "Expected error but operation succeeded"), s1)
      | _ => (.ok (), s1)
  | _ => (.ok (), s)

/-- The interaction loop of `validate_single_pact_contract`.  Writing the
temporary Pact file touches only the local filesystem, never the backend,
and is modelled as succeeding. -/
def validatePactInteractions : List PactInteraction → Backend →
    Except TylError Unit × Backend
  | [], s => (.ok (), s)
  | i :: rest, s =>
    match validate_pact_interaction i s with
    | (.ok _, s1) => validatePactInteractions rest s1
    | (.error e, s1) => (.error e, s1)

/-- `SchemaMigrationManager::validate_pact_contracts`. -/
def validate_pact_contracts : List PactContract → Backend →
    Except TylError Unit × Backend
  | [], s => (.ok (), s)
  | c :: rest, s =>
    match validatePactInteractions c.interactions s with
    | (.ok _, s1) => validate_pact_contracts rest s1
    | (.error e, s1) => (.error e, s1)

/-- `SchemaMigrationManager::apply_collection_change`. -/
def apply_collection_change (change : CollectionChange) (s : Backend) :
    Except TylError ChangeResult × Backend :=
  match change with
  | .CreateCollection config =>
    match mockCreateCollection config s with
    | (.ok _, s1) => (.ok (.CollectionCreated config.name), s1)
    | (.error e, s1) => (.error e, s1)
  | .DeleteCollection name =>
    match mockDeleteCollection name s with
    | (.ok _, s1) => (.ok (.CollectionDeleted name), s1)
    | (.error e, s1) => (.error e, s1)
  | .UpdateCollection name _ _ =>
    (.error (.validation "update_collection"
      ("Collection " ++ name ++ " update not supported - requires manual migration")), s)
  | .RenameCollection old_name new_name =>
    (.error (.validation "rename_collection"
      ("Collection rename from " ++ old_name ++ " to " ++ new_name ++
       " requires manual migration")), s)
  | .AddIndex collection field index_type =>
    (.ok (.IndexAdded collection field index_type), s)
  | .RemoveIndex collection field =>
    (.ok (.IndexRemoved collection field), s)

/-- The change-application loop of `apply_migration` (declared order,
stopping at the first failure). -/
def applyChanges : List CollectionChange → Backend →
    Except TylError (List ChangeResult) × Backend
  | [], s => (.ok [], s)
  | c :: rest, s =>
    match apply_collection_change c s with
    | (.error e, s1) => (.error e, s1)
    | (.ok r, s1) =>
      match applyChanges rest s1 with
      | (.ok rs, s2) => (.ok (r :: rs), s2)
      | (.error e, s2) => (.error e, s2)

/-- `SchemaMigrationManager::record_migration`. -/
def record_migration (migColl : String) (m : SchemaMigration) (s : Backend) :
    Except TylError Unit × Backend :=
  let metadata := [("migration", encodeMigration m),
                   ("type", Json.str "schema_migration")]
  let migrationVector : Vector := ⟨versionToString m.version, List.replicate 256 0, metadata⟩
  mockStoreVector migColl migrationVector s

/-- `SchemaMigrationManager::apply_migration`: contract validation, then
dependency validation, then change application in declared order, then
history recording. -/
def apply_migration (migColl : String) (m : SchemaMigration) (s : Backend) :
    Except TylError MigrationResult × Backend :=
  match validate_pact_contracts m.pact_contracts s with
  | (.error e, s1) => (.error e, s1)
  | (.ok _, s1) =>
    match validate_dependencies migColl m s1 with
    | (.error e, s2) => (.error e, s2)
    | (.ok _, s2) =>
      match applyChanges m.collection_changes s2 with
      | (.error e, s3) => (.error e, s3)
      | (.ok results, s3) =>
        match record_migration migColl m s3 with
        | (.error e, s4) => (.error e, s4)
        | (.ok _, s4) => (.ok ⟨m.version, results, true⟩, s4)

/-- `SchemaMigrationManager::get_migration_record`. -/
def get_migration_record (migColl : String) (v : Version) (s : Backend) :
    Except TylError SchemaMigration × Backend :=
  match mockGetVector migColl (versionToString v) s with
  | (.error e, s1) => (.error e, s1)
  | (.ok vec?, s1) =>
    match vec? with
    | some vec =>
      match alookup vec.metadata "migration" with
      | some migrationData =>
        match decodeMigration migrationData with
        | .ok m => (.ok m, s1)
        | .error e => (.error (.database ("Invalid migration data: " ++ e)), s1)
      | none => (.error (.notFound "migration" (versionToString v)), s1)
    | none => (.error (.notFound "migration" (versionToString v)), s1)

/-- `SchemaMigrationManager::apply_reverse_change`. -/
def apply_reverse_change (change : CollectionChange) (s : Backend) :
    Except TylError Unit × Backend :=
  match change with
  | .CreateCollection config => mockDeleteCollection config.name s
  | .DeleteCollection name =>
    (.error (.validation "rollback"
      ("Cannot recreate deleted collection " ++ name ++ " without backup")), s)
  | _ => (.ok (), s)

/-- The reverse-change loop of `rollback_migration` (the source iterates
`collection_changes.iter().rev()`; this function receives the already
reversed list). -/
def applyReverseChanges : List CollectionChange → Backend →
    Except TylError Unit × Backend
  | [], s => (.ok (), s)
  | c :: rest, s =>
    match apply_reverse_change c s with
    | (.ok _, s1) => applyReverseChanges rest s1
    | (.error e, s1) => (.error e, s1)

/-- `SchemaMigrationManager::rollback_migration`. -/
def rollback_migration (migColl : String) (v : Version) (s : Backend) :
    Except TylError Unit × Backend :=
  match get_migration_record migColl v s with
  | (.error e, s1) => (.error e, s1)
  | (.ok m, s1) =>
    if !m.metadata.reversible then
      (.error (.validation "rollback"
        ("Migration " ++ versionToString v ++ " is not reversible")), s1)
    else
      match applyReverseChanges m.collection_changes.reverse s1 with
      | (.error e, s2) => (.error e, s2)
      | (.ok _, s2) =>
        match mockDeleteVector migColl (versionToString v) s2 with
        | (.error e, s3) => (.error e, s3)
        | (.ok _, s3) => (.ok (), s3)

/-! ## Supporting lemmas -/

/-- Shorthand (for theorem statements) for the equality-match leaf the
compiler emits: a field condition carrying only a match value. -/
def matchCond (field : String) (mv : MatchValue) : Condition :=
  ⟨{ key := field, matchValue := some mv, range := none, isEmpty := none, isNull := none }⟩

/-- Shorthand for the range leaf the compiler emits: a field condition
carrying only a range. -/
def rangeCondOf (field : String) (r : RangeCond) : Condition :=
  ⟨{ key := field, matchValue := none, range := some r, isEmpty := none, isNull := none }⟩

/-- Shorthand for the presence/absence leaf the compiler emits: `is_empty`
and `is_null` both set to the same flag. -/
def presenceCond (field : String) (emptyNull : Bool) : Condition :=
  ⟨{ key := field, matchValue := none, range := none,
     isEmpty := some emptyNull, isNull := some emptyNull }⟩

theorem objGet_cons (k' : String) (v : Json) (rest : List (String × Json)) (k : String) :
    objGet ((k', v) :: rest) k = if k' = k then some v else objGet rest k := rfl

theorem objGet_eq_none_of_not_mem {l : List (String × Json)} {k : String}
    (h : k ∉ l.map Prod.fst) : objGet l k = none := by
  induction l with
  | nil => rfl
  | cons e rest ih =>
    simp only [List.map_cons, List.mem_cons, not_or] at h
    obtain ⟨e1, e2⟩ := e
    have hne : ¬e1 = k := fun hk => h.1 hk.symm
    rw [objGet_cons, if_neg hne, ih h.2]

/-- A single-entry filter map compiles to the filter whose one MUST condition
is the entry's condition (when the entry produces one). -/
theorem build_filter_single (p : SearchParams) (field : String) (value : Json)
    (cond : Condition) (h : p.filters = [(field, value)])
    (hc : filterEntryCondition field value = some cond) :
    build_filter p = some ⟨[], [cond], []⟩ := by
  simp [build_filter, h, List.filterMap, hc]

/-! ## Claims -/

/-- C1.  The claim states that `$ne` compilation surfaces a not-implemented
error to the caller of the filter-compilation entry point and that the
condition is never silently dropped from the compiled query.  On the code
this is false: `build_filter` is the entry point the search path calls, it
returns `Option<Filter>` with no error channel, and its `$ne` arm catches
the helper's error with `Err(_) => continue` (src/lib.rs:602-607, comment
"Skip unsupported $ne conditions").  At the concrete input
`{"status": {"$ne": "archived"}}` the helper does produce the
not-implemented error, yet the caller receives `None`: a compiled query
that simply omits the condition. -/
theorem c1_counterexample :
    build_not_equals_condition "status" [("$ne", Json.str "archived")] =
      .error (TylError.storageFailed "$ne operator not yet implemented") ∧
    build_filter ⟨10, none, [("status", Json.obj [("$ne", Json.str "archived")])], false⟩ =
      none := by
  constructor
  · rfl
  · rfl

/-- C1 (amended).  For every filter-map field whose value is an operator
object containing `$ne` (and none of the range or `$in` keys that dispatch
earlier), `build_not_equals_condition` returns the not-implemented error,
but `build_filter` catches it and silently drops the field: the field
contributes no condition, and a map consisting of that field alone compiles
to no filter at all, with no error reaching the caller. -/
theorem c1_ne_silently_dropped (field : String) (obj : List (String × Json))
    (hne : objContains obj "$ne" = true)
    (hgte : objContains obj "$gte" = false) (hlte : objContains obj "$lte" = false)
    (hgt : objContains obj "$gt" = false) (hlt : objContains obj "$lt" = false)
    (hin : objContains obj "$in" = false) :
    build_not_equals_condition field obj =
      .error (TylError.storageFailed "$ne operator not yet implemented") ∧
    filterEntryCondition field (Json.obj obj) = none ∧
    (∀ p : SearchParams, p.filters = [(field, Json.obj obj)] → build_filter p = none) := by
  refine ⟨rfl, ?_, ?_⟩
  · simp [filterEntryCondition, hne, hgte, hlte, hgt, hlt, hin, build_not_equals_condition]
  · intro p hp
    simp [build_filter, hp, List.filterMap, filterEntryCondition, hne, hgte, hlte, hgt,
      hlt, hin, build_not_equals_condition]

/-- The bound accumulated for one range operator: the operator's numeric
value when the key is present in the object, else the fold's incoming
accumulator. -/
def rangeBound (obj : List (String × Json)) (k : String) (dflt : Option ℚ) : Option ℚ :=
  match objGet obj k with
  | some v => v.asF64
  | none => dflt

theorem rangeBound_none (obj : List (String × Json)) (k : String) :
    rangeBound obj k none = (objGet obj k).bind Json.asF64 := by
  unfold rangeBound
  cases objGet obj k <;> rfl

theorem rangeBound_of_not_mem {obj : List (String × Json)} {k : String}
    (h : k ∉ obj.map Prod.fst) (dflt : Option ℚ) : rangeBound obj k dflt = dflt := by
  unfold rangeBound
  rw [objGet_eq_none_of_not_mem h]

theorem rangeBound_cons_ne (op : String) (v : Json) (rest : List (String × Json))
    {k : String} (h : op ≠ k) (dflt : Option ℚ) :
    rangeBound ((op, v) :: rest) k dflt = rangeBound rest k dflt := by
  unfold rangeBound
  rw [objGet_cons, if_neg h]

theorem rangeBound_cons_self (op : String) (v : Json) (rest : List (String × Json))
    (dflt : Option ℚ) :
    rangeBound ((op, v) :: rest) op dflt = v.asF64 := by
  unfold rangeBound
  rw [objGet_cons, if_pos rfl]

/-- On an operator object with unique keys whose values are all numeric, the
`build_range_condition` loop resolves each of the four bounds to the value
present under its key, keeping the incoming accumulator when the key is
absent. -/
theorem rangeFold_eq (obj : List (String × Json)) (g l gt lt : Option ℚ)
    (hnd : (obj.map Prod.fst).Nodup)
    (hnum : ∀ e ∈ obj, (Json.asF64 e.2).isSome = true) :
    rangeFold obj g l gt lt =
      .ok ⟨rangeBound obj "$gte" g, rangeBound obj "$lte" l,
           rangeBound obj "$gt" gt, rangeBound obj "$lt" lt⟩ := by
  induction obj generalizing g l gt lt with
  | nil => rfl
  | cons e rest ih =>
    obtain ⟨op, v⟩ := e
    have hv : (Json.asF64 v).isSome = true := hnum ⟨op, v⟩ (List.mem_cons_self _ _)
    obtain ⟨q, hq⟩ := Option.isSome_iff_exists.mp hv
    have hnd' : (op :: rest.map Prod.fst).Nodup := by simpa using hnd
    have hopnot : op ∉ rest.map Prod.fst := (List.nodup_cons.mp hnd').1
    have hndrest : (rest.map Prod.fst).Nodup := (List.nodup_cons.mp hnd').2
    have hnumrest : ∀ e ∈ rest, (Json.asF64 e.2).isSome = true :=
      fun e he => hnum e (List.mem_cons_of_mem _ he)
    have hrest := fun g l gt lt => ih g l gt lt hndrest hnumrest
    by_cases h1 : op = "$gte"
    · subst h1
      rw [show rangeFold (("$gte", v) :: rest) g l gt lt =
            rangeFold rest (some q) l gt lt by simp [rangeFold, hq]]
      rw [hrest, rangeBound_cons_self, hq,
        rangeBound_of_not_mem hopnot,
        rangeBound_cons_ne _ _ _ (by simp) l,
        rangeBound_cons_ne _ _ _ (by simp) gt,
        rangeBound_cons_ne _ _ _ (by simp) lt]
    · by_cases h2 : op = "$lte"
      · subst h2
        rw [show rangeFold (("$lte", v) :: rest) g l gt lt =
              rangeFold rest g (some q) gt lt by simp [rangeFold, hq]]
        rw [hrest, rangeBound_cons_self, hq,
          rangeBound_of_not_mem hopnot,
          rangeBound_cons_ne _ _ _ (by simp) g,
          rangeBound_cons_ne _ _ _ (by simp) gt,
          rangeBound_cons_ne _ _ _ (by simp) lt]
      · by_cases h3 : op = "$gt"
        · subst h3
          rw [show rangeFold (("$gt", v) :: rest) g l gt lt =
                rangeFold rest g l (some q) lt by simp [rangeFold, hq]]
          rw [hrest, rangeBound_cons_self, hq,
            rangeBound_of_not_mem hopnot,
            rangeBound_cons_ne _ _ _ (by simp) g,
            rangeBound_cons_ne _ _ _ (by simp) l,
            rangeBound_cons_ne _ _ _ (by simp) lt]
        · by_cases h4 : op = "$lt"
          · subst h4
            rw [show rangeFold (("$lt", v) :: rest) g l gt lt =
                  rangeFold rest g l gt (some q) by simp [rangeFold, hq]]
            rw [hrest, rangeBound_cons_self, hq,
              rangeBound_of_not_mem hopnot,
              rangeBound_cons_ne _ _ _ (by simp) g,
              rangeBound_cons_ne _ _ _ (by simp) l,
              rangeBound_cons_ne _ _ _ (by simp) gt]
          · rw [show rangeFold ((op, v) :: rest) g l gt lt =
                  rangeFold rest g l gt lt by simp [rangeFold, hq, h1, h2, h3, h4]]
            rw [hrest,
              rangeBound_cons_ne _ _ _ h1 g,
              rangeBound_cons_ne _ _ _ h2 l,
              rangeBound_cons_ne _ _ _ h3 gt,
              rangeBound_cons_ne _ _ _ h4 lt]

/-- C4.  For every field whose filter value is an operator object with
unique keys, all-numeric values and at least one of `$gte`/`$lte`/`$gt`/`$lt`
present, compilation produces exactly one range leaf for the field merging
every bound present in the object (each bound carries its given value,
`$gte`/`$lte` landing in the inclusive slots and `$gt`/`$lt` in the strict
ones), with every absent bound left open; in particular
`{"$gte": a, "$lte": b}` yields lower bound `a` inclusive and upper bound
`b` inclusive. -/
theorem c4_range_merging (field : String) (obj : List (String × Json))
    (hnd : (obj.map Prod.fst).Nodup)
    (hnum : ∀ e ∈ obj, (Json.asF64 e.2).isSome = true)
    (hdisp : (objContains obj "$gte" || objContains obj "$lte" ||
              objContains obj "$gt" || objContains obj "$lt") = true) :
    build_range_condition field obj =
      .ok (rangeCondOf field ⟨(objGet obj "$gte").bind Json.asF64,
        (objGet obj "$lte").bind Json.asF64,
        (objGet obj "$gt").bind Json.asF64,
        (objGet obj "$lt").bind Json.asF64⟩) ∧
    (∀ p : SearchParams, p.filters = [(field, Json.obj obj)] →
      build_filter p = some ⟨[], [rangeCondOf field
        ⟨(objGet obj "$gte").bind Json.asF64,
         (objGet obj "$lte").bind Json.asF64,
         (objGet obj "$gt").bind Json.asF64,
         (objGet obj "$lt").bind Json.asF64⟩], []⟩) ∧
    (∀ (f : String) (a b : ℚ) (p : SearchParams),
      p.filters = [(f, Json.obj [("$gte", Json.num (.float a)),
        ("$lte", Json.num (.float b))])] →
      build_filter p = some ⟨[], [rangeCondOf f ⟨some a, some b, none, none⟩], []⟩) := by
  have hcond : build_range_condition field obj =
      .ok (rangeCondOf field ⟨(objGet obj "$gte").bind Json.asF64,
        (objGet obj "$lte").bind Json.asF64,
        (objGet obj "$gt").bind Json.asF64,
        (objGet obj "$lt").bind Json.asF64⟩) := by
    unfold build_range_condition
    rw [rangeFold_eq obj none none none none hnd hnum]
    simp [rangeBound_none, rangeCondOf]
  have hentry : filterEntryCondition field (Json.obj obj) =
      some (rangeCondOf field ⟨(objGet obj "$gte").bind Json.asF64,
        (objGet obj "$lte").bind Json.asF64,
        (objGet obj "$gt").bind Json.asF64,
        (objGet obj "$lt").bind Json.asF64⟩) := by
    simp only [filterEntryCondition]
    rw [if_pos hdisp, hcond]
  refine ⟨hcond, ?_, ?_⟩
  · intro p hp
    exact build_filter_single p field (Json.obj obj) _ hp hentry
  · intro f a b p hp
    exact build_filter_single p f _ _ hp rfl

theorem c4_range_merging_witness :
    (([("$gte", Json.num (.int 10)), ("$lte", Json.num (.int 20))].map
        (Prod.fst (α := String) (β := Json))).Nodup ∧
      (∀ e ∈ [("$gte", Json.num (.int 10)), ("$lte", Json.num (.int 20))],
        (Json.asF64 e.2).isSome = true) ∧
      (objContains [("$gte", Json.num (.int 10)), ("$lte", Json.num (.int 20))] "$gte" ||
       objContains [("$gte", Json.num (.int 10)), ("$lte", Json.num (.int 20))] "$lte" ||
       objContains [("$gte", Json.num (.int 10)), ("$lte", Json.num (.int 20))] "$gt" ||
       objContains [("$gte", Json.num (.int 10)), ("$lte", Json.num (.int 20))] "$lt") = true) ∧
    build_range_condition "price" [("$gte", Json.num (.int 10)), ("$lte", Json.num (.int 20))] =
      .ok (rangeCondOf "price" ⟨some 10, some 20, none, none⟩) := by
  have h := c4_range_merging "price"
    [("$gte", Json.num (.int 10)), ("$lte", Json.num (.int 20))]
    (by decide) (by decide) (by decide)
  exact ⟨⟨by decide, by decide, by decide⟩, h.1⟩

/-- C5.  For every field whose filter value is an operator object whose
`$in` key holds a non-empty array whose first element is a string, integer,
float or boolean, compilation produces exactly one equality match leaf on
that field whose match value is derived from the first element alone
(keyword for a string, the integer itself, the truncated integer for a
float, the boolean itself), for every possible tail of the array. -/
theorem c5_in_first_element_only (field : String) (obj : List (String × Json))
    (firstVal : Json) (rest : List Json) (mv : MatchValue)
    (hin : objGet obj "$in" = some (.arr (firstVal :: rest)))
    (hmv : inMatchValue firstVal = some mv)
    (hgte : objContains obj "$gte" = false) (hlte : objContains obj "$lte" = false)
    (hgt : objContains obj "$gt" = false) (hlt : objContains obj "$lt" = false) :
    build_in_condition field obj = .ok (matchCond field mv) ∧
    (∀ p : SearchParams, p.filters = [(field, Json.obj obj)] →
      build_filter p = some ⟨[], [matchCond field mv], []⟩) ∧
    (∀ s : String, inMatchValue (Json.str s) = some (.keyword s)) ∧
    (∀ i : Int, inMatchValue (Json.num (.int i)) = some (.integer i)) ∧
    (∀ q : ℚ, inMatchValue (Json.num (.float q)) = some (.integer (f64AsI64 q))) ∧
    (∀ b : Bool, inMatchValue (Json.bool b) = some (.boolean b)) := by
  have hcond : build_in_condition field obj = .ok (matchCond field mv) := by
    simp [build_in_condition, hin, hmv, matchCond]
  have hinT : objContains obj "$in" = true := by
    simp [objContains, hin]
  have hentry : filterEntryCondition field (Json.obj obj) = some (matchCond field mv) := by
    simp only [filterEntryCondition]
    rw [if_neg (by simp [hgte, hlte, hgt, hlt]), if_pos hinT, hcond]
  refine ⟨hcond, ?_, fun _ => rfl, fun _ => rfl, fun _ => rfl, fun _ => rfl⟩
  intro p hp
  exact build_filter_single p field (Json.obj obj) _ hp hentry

theorem c5_in_first_element_only_witness :
    (objGet [("$in", Json.arr [Json.str "a", Json.str "b", Json.str "c"])] "$in" =
      some (.arr [Json.str "a", Json.str "b", Json.str "c"]) ∧
     inMatchValue (Json.str "a") = some (.keyword "a") ∧
     objContains [("$in", Json.arr [Json.str "a", Json.str "b", Json.str "c"])] "$gte" = false ∧
     objContains [("$in", Json.arr [Json.str "a", Json.str "b", Json.str "c"])] "$lte" = false ∧
     objContains [("$in", Json.arr [Json.str "a", Json.str "b", Json.str "c"])] "$gt" = false ∧
     objContains [("$in", Json.arr [Json.str "a", Json.str "b", Json.str "c"])] "$lt" = false) ∧
    build_in_condition "cat" [("$in", Json.arr [Json.str "a", Json.str "b", Json.str "c"])] =
      .ok (matchCond "cat" (.keyword "a")) := by
  have h := c5_in_first_element_only "cat"
    [("$in", Json.arr [Json.str "a", Json.str "b", Json.str "c"])]
    (Json.str "a") [Json.str "b", Json.str "c"] (.keyword "a")
    rfl rfl rfl rfl rfl rfl
  exact ⟨⟨rfl, rfl, rfl, rfl, rfl, rfl⟩, h.1⟩

/-- C9.  For every field whose filter value is an operator object whose
`$exists` key holds a non-boolean value, compilation treats it as
`$exists: true` — `unwrap_or(true)` after the failed `as_bool` — and emits
the presence leaf (`is_empty = false`, `is_null = false`) for the field
rather than erroring or skipping it. -/
theorem c9_exists_nonbool_defaults_true (field : String) (obj : List (String × Json))
    (v : Json) (hex : objGet obj "$exists" = some v) (hb : v.asBool = none)
    (hgte : objContains obj "$gte" = false) (hlte : objContains obj "$lte" = false)
    (hgt : objContains obj "$gt" = false) (hlt : objContains obj "$lt" = false)
    (hin : objContains obj "$in" = false) (hne : objContains obj "$ne" = false) :
    build_exists_condition field obj = .ok (presenceCond field false) ∧
    (∀ p : SearchParams, p.filters = [(field, Json.obj obj)] →
      build_filter p = some ⟨[], [presenceCond field false], []⟩) := by
  have hcond : build_exists_condition field obj = .ok (presenceCond field false) := by
    simp [build_exists_condition, hex, hb, presenceCond]
  have hexT : objContains obj "$exists" = true := by
    simp [objContains, hex]
  have hentry : filterEntryCondition field (Json.obj obj) =
      some (presenceCond field false) := by
    simp only [filterEntryCondition]
    rw [if_neg (by simp [hgte, hlte, hgt, hlt]), if_neg (by simp [hin]),
      if_neg (by simp [hne]), if_pos hexT, hcond]
  refine ⟨hcond, ?_⟩
  intro p hp
  exact build_filter_single p field (Json.obj obj) _ hp hentry

theorem c9_exists_nonbool_defaults_true_witness :
    (objGet [("$exists", Json.str "yes")] "$exists" = some (Json.str "yes") ∧
     Json.asBool (Json.str "yes") = none ∧
     objContains [("$exists", Json.str "yes")] "$gte" = false ∧
     objContains [("$exists", Json.str "yes")] "$lte" = false ∧
     objContains [("$exists", Json.str "yes")] "$gt" = false ∧
     objContains [("$exists", Json.str "yes")] "$lt" = false ∧
     objContains [("$exists", Json.str "yes")] "$in" = false ∧
     objContains [("$exists", Json.str "yes")] "$ne" = false) ∧
    build_filter ⟨7, none, [("f", Json.obj [("$exists", Json.str "yes")])], false⟩ =
      some ⟨[], [presenceCond "f" false], []⟩ := by
  have h := c9_exists_nonbool_defaults_true "f" [("$exists", Json.str "yes")]
    (Json.str "yes") rfl rfl rfl rfl rfl rfl rfl rfl
  exact ⟨⟨rfl, rfl, rfl, rfl, rfl, rfl, rfl, rfl⟩,
    h.2 ⟨7, none, [("f", Json.obj [("$exists", Json.str "yes")])], false⟩ rfl⟩

/-- C10.  In `build_complex_filter`, every pair whose value is a float
(non-`i64` number), null, array or object contributes no condition and is
silently dropped from its list; when every pair of all three lists is
dropped the result is no filter; by contrast the flat field-map compiler
`build_filter` truncates a float equality value to an integer match instead
of dropping the field. -/
theorem c10_complex_filter_drops (field : String) :
    (∀ q : ℚ, complexMatchValue (Json.num (.float q)) = none) ∧
    complexMatchValue Json.null = none ∧
    (∀ xs : List Json, complexMatchValue (Json.arr xs) = none) ∧
    (∀ fs : List (String × Json), complexMatchValue (Json.obj fs) = none) ∧
    (∀ (v : Json) (l : List (String × Json)), complexMatchValue v = none →
      build_condition_list ((field, v) :: l) = build_condition_list l) ∧
    (∀ mustL shouldL mustNotL : List (String × Json),
      (∀ e ∈ mustL, complexMatchValue e.2 = none) →
      (∀ e ∈ shouldL, complexMatchValue e.2 = none) →
      (∀ e ∈ mustNotL, complexMatchValue e.2 = none) →
      build_complex_filter mustL shouldL mustNotL = none) ∧
    (∀ (q : ℚ) (p : SearchParams), p.filters = [(field, Json.num (.float q))] →
      build_filter p = some ⟨[], [matchCond field (.integer (f64AsI64 q))], []⟩) := by
  have hnil : ∀ l : List (String × Json), (∀ e ∈ l, complexMatchValue e.2 = none) →
      build_condition_list l = [] := by
    intro l hl
    simp only [build_condition_list, List.filterMap_eq_nil_iff]
    intro e he
    rw [hl e he]
    rfl
  refine ⟨fun _ => rfl, rfl, fun _ => rfl, fun _ => rfl, ?_, ?_, ?_⟩
  · intro v l hv
    simp [build_condition_list, hv]
  · intro mustL shouldL mustNotL h1 h2 h3
    simp [build_complex_filter, hnil mustL h1, hnil shouldL h2, hnil mustNotL h3]
  · intro q p hp
    exact build_filter_single p field _ _ hp rfl

theorem c10_complex_filter_drops_witness :
    (complexMatchValue (Json.num (.float (3 / 2))) = none ∧
     complexMatchValue (Json.num (.float (3 / 2))) = none) ∧
    build_complex_filter [("x", Json.num (.float (3 / 2)))] [] [] = none ∧
    build_filter ⟨3, none, [("x", Json.num (.float (3 / 2)))], false⟩ =
      some ⟨[], [matchCond "x" (.integer 1)], []⟩ := by
  have h := c10_complex_filter_drops "x"
  refine ⟨⟨rfl, rfl⟩, ?_, ?_⟩
  · exact h.2.2.2.2.2.1 [("x", Json.num (.float (3 / 2)))] [] []
      (by intro e he; simp only [List.mem_singleton] at he; subst he; rfl)
      (by simp) (by simp)
  · have hw := h.2.2.2.2.2.2 (3 / 2) ⟨3, none, [("x", Json.num (.float (3 / 2)))], false⟩ rfl
    have hfloor : ⌊(3 : ℚ) / 2⌋ = 1 := by
      rw [Int.floor_eq_iff]
      norm_num
    have htrunc : f64AsI64 ((3 : ℚ) / 2) = 1 := by
      simp only [f64AsI64, if_pos (by norm_num : (0 : ℚ) ≤ 3 / 2), hfloor]
      norm_num
    rw [htrunc] at hw
    exact hw

/-! ### Association-list lemmas for the mock backend state -/

theorem alookup_ainsert_self (l : List (String × α)) (k : String) (v : α) :
    alookup (ainsert l k v) k = some v := by
  induction l with
  | nil => simp [ainsert, alookup]
  | cons e rest ih =>
    obtain ⟨k', v'⟩ := e
    by_cases h : k' = k
    · simp [ainsert, h, alookup]
    · simp [ainsert, h, alookup, ih]

theorem alookup_ainsert_ne (l : List (String × α)) {k k' : String} (v : α)
    (h : k ≠ k') : alookup (ainsert l k v) k' = alookup l k' := by
  induction l with
  | nil => simp [ainsert, alookup, h]
  | cons e rest ih =>
    obtain ⟨k0, v0⟩ := e
    by_cases h0 : k0 = k
    · subst h0
      simp [ainsert, alookup, h, ih]
    · simp only [ainsert, if_neg h0, alookup]
      by_cases h1 : k0 = k'
      · simp [h1]
      · simp [h1, ih]

theorem alookup_aremove_self (l : List (String × α)) (k : String) :
    alookup (aremove l k) k = none := by
  induction l with
  | nil => rfl
  | cons e rest ih =>
    obtain ⟨k', v'⟩ := e
    by_cases h : k' = k
    · simp [aremove, h, ih]
    · simp [aremove, h, alookup, ih]

theorem alookup_aremove_ne (l : List (String × α)) {k k' : String} (h : k ≠ k') :
    alookup (aremove l k) k' = alookup l k' := by
  induction l with
  | nil => rfl
  | cons e rest ih =>
    obtain ⟨k0, v0⟩ := e
    by_cases h0 : k0 = k
    · have hk0 : ¬k0 = k' := fun hx => h (h0.symm.trans hx)
      simp only [aremove, if_pos h0, alookup, if_neg hk0]
      exact ih
    · simp only [aremove, if_neg h0, alookup]
      by_cases h1 : k0 = k'
      · simp [h1]
      · simp [h1, ih]

/-! ### C8: initialize is idempotent -/

theorem errContains_alreadyExists :
    errContains (TylError.storageFailed "Collection _tyl_migrations already exists")
      "already exists" = true := by
  decide

theorem initMigrationSystem_ok (s : Backend) :
    (initMigrationSystem "_tyl_migrations" s).1 = .ok () := by
  simp only [initMigrationSystem, mockCreateCollection]
  by_cases h : (alookup s.collections "_tyl_migrations").isSome
  · rw [if_pos h]
    simp [errContains_alreadyExists]
  · rw [if_neg h]

theorem initMigrationSystem_has_collection (s : Backend) :
    (alookup (initMigrationSystem "_tyl_migrations" s).2.collections
      "_tyl_migrations").isSome = true := by
  simp only [initMigrationSystem, mockCreateCollection]
  by_cases h : (alookup s.collections "_tyl_migrations").isSome
  · rw [if_pos h]
    simpa [errContains_alreadyExists] using h
  · rw [if_neg h]
    simp [alookup_ainsert_self]

theorem initMigrationSystem_noop (s : Backend)
    (h : (alookup s.collections "_tyl_migrations").isSome = true) :
    initMigrationSystem "_tyl_migrations" s = (.ok (), s) := by
  simp only [initMigrationSystem, mockCreateCollection]
  rw [if_pos h]
  simp [errContains_alreadyExists]

/-- C8.  `initialize` is idempotent: on every backend state it succeeds (a
backend "already exists" failure is treated as success), and a second call
in a row succeeds again and leaves exactly the state the first call
produced. -/
theorem c8_initialize_idempotent (s : Backend) :
    (initMigrationSystem "_tyl_migrations" s).1 = .ok () ∧
    (initMigrationSystem "_tyl_migrations"
      (initMigrationSystem "_tyl_migrations" s).2).1 = .ok () ∧
    (initMigrationSystem "_tyl_migrations"
      (initMigrationSystem "_tyl_migrations" s).2).2 =
      (initMigrationSystem "_tyl_migrations" s).2 := by
  refine ⟨initMigrationSystem_ok s, initMigrationSystem_ok _, ?_⟩
  rw [initMigrationSystem_noop _ (initMigrationSystem_has_collection s)]

/-! ### C7: rolling back a non-reversible migration fails without mutation -/

/-- C7.  For every persisted migration record whose reversible flag is
false, `rollback_migration` fails with the "not reversible" validation
error, performs no reverse change, and returns the backend state unchanged
(in particular the migration's history record is still present). -/
theorem c7_rollback_nonreversible (migColl : String) (v : Version) (s : Backend)
    (m : SchemaMigration) (vs : List (String × Vector)) (vec : Vector) (j : Json)
    (h1 : alookup s.vectors migColl = some vs)
    (h2 : alookup vs (versionToString v) = some vec)
    (h3 : alookup vec.metadata "migration" = some j)
    (h4 : decodeMigration j = .ok m)
    (h5 : m.metadata.reversible = false) :
    rollback_migration migColl v s =
      (.error (.validation "rollback"
        ("Migration " ++ versionToString v ++ " is not reversible")), s) := by
  simp only [rollback_migration, get_migration_record, mockGetVector, h1, h2, h3, h4, h5]
  rfl

/-! ### C6: rolling back a reversible create-only migration -/

theorem applyReverseChanges_creates (cfgs : List CollectionConfig) (s : Backend) :
    applyReverseChanges (cfgs.map CollectionChange.CreateCollection) s =
      (.ok (), ⟨cfgs.foldl (fun l cfg => aremove l cfg.name) s.collections,
                cfgs.foldl (fun l cfg => aremove l cfg.name) s.vectors⟩) := by
  induction cfgs generalizing s with
  | nil => rfl
  | cons cfg rest ih =>
    simp only [List.map_cons, applyReverseChanges, apply_reverse_change,
      mockDeleteCollection, List.foldl_cons]
    exact ih _

theorem alookup_foldl_aremove_ne (cfgs : List CollectionConfig)
    (L : List (String × α)) {k : String} (h : ∀ cfg ∈ cfgs, cfg.name ≠ k) :
    alookup (cfgs.foldl (fun l cfg => aremove l cfg.name) L) k = alookup L k := by
  induction cfgs generalizing L with
  | nil => rfl
  | cons cfg rest ih =>
    simp only [List.foldl_cons]
    rw [ih _ (fun c hc => h c (List.mem_cons_of_mem _ hc)),
      alookup_aremove_ne _ (h cfg (List.mem_cons_self _ _))]

theorem alookup_foldl_aremove_none (cfgs : List CollectionConfig)
    (L : List (String × α)) {k : String} (hnone : alookup L k = none) :
    alookup (cfgs.foldl (fun l cfg => aremove l cfg.name) L) k = none := by
  induction cfgs generalizing L with
  | nil => exact hnone
  | cons cfg rest ih =>
    simp only [List.foldl_cons]
    apply ih
    by_cases hk : cfg.name = k
    · subst hk
      exact alookup_aremove_self _ _
    · rw [alookup_aremove_ne _ hk]
      exact hnone

theorem alookup_foldl_aremove_mem (cfgs : List CollectionConfig)
    (L : List (String × α)) {n : String} (hmem : ∃ cfg ∈ cfgs, cfg.name = n) :
    alookup (cfgs.foldl (fun l cfg => aremove l cfg.name) L) n = none := by
  induction cfgs generalizing L with
  | nil =>
    rcases hmem with ⟨c, hc, _⟩
    cases hc
  | cons cfg rest ih =>
    simp only [List.foldl_cons]
    rcases hmem with ⟨c, hc, hcn⟩
    rcases List.mem_cons.mp hc with hc1 | hc2
    · apply alookup_foldl_aremove_none
      rw [← hcn, ← hc1]
      exact alookup_aremove_self _ _
    · exact ih _ ⟨c, hc2, hcn⟩

/-- C6.  For every persisted migration record whose reversible flag is true
and whose changes are all `CreateCollection`, `rollback_migration` succeeds,
applying the reverse of each change in reverse declared order (deleting each
created collection, expressed by the fold over the reversed config list) and
then removing the migration's history record; each created collection is
absent afterwards, and a second `rollback_migration` of the same version
fails with a not-found error.  The hypothesis that no change names the
reserved history collection reflects genuine persistence: a migration whose
`CreateCollection` targeted the history collection could never have been
recorded, since applying it fails on "already exists" before recording. -/
theorem c6_rollback_reversible_creates (migColl : String) (v : Version) (s : Backend)
    (m : SchemaMigration) (vs : List (String × Vector)) (vec : Vector) (j : Json)
    (cfgs : List CollectionConfig)
    (h1 : alookup s.vectors migColl = some vs)
    (h2 : alookup vs (versionToString v) = some vec)
    (h3 : alookup vec.metadata "migration" = some j)
    (h4 : decodeMigration j = .ok m)
    (h5 : m.metadata.reversible = true)
    (h6 : m.collection_changes = cfgs.map CollectionChange.CreateCollection)
    (h7 : ∀ cfg ∈ cfgs, cfg.name ≠ migColl) :
    rollback_migration migColl v s = (.ok (),
      ⟨cfgs.reverse.foldl (fun l cfg => aremove l cfg.name) s.collections,
       ainsert (cfgs.reverse.foldl (fun l cfg => aremove l cfg.name) s.vectors)
         migColl (aremove vs (versionToString v))⟩) ∧
    (∀ cfg ∈ cfgs, alookup (rollback_migration migColl v s).2.collections cfg.name = none) ∧
    (rollback_migration migColl v (rollback_migration migColl v s).2).1 =
      .error (.notFound "migration" (versionToString v)) := by
  have hrec : get_migration_record migColl v s = (.ok m, s) := by
    simp only [get_migration_record, mockGetVector, h1, h2, h3, h4]
  have hrev : applyReverseChanges m.collection_changes.reverse s =
      (.ok (), ⟨cfgs.reverse.foldl (fun l cfg => aremove l cfg.name) s.collections,
                cfgs.reverse.foldl (fun l cfg => aremove l cfg.name) s.vectors⟩) := by
    rw [h6, ← List.map_reverse]
    exact applyReverseChanges_creates cfgs.reverse s
  have hlook : alookup (cfgs.reverse.foldl (fun l cfg => aremove l cfg.name) s.vectors)
      migColl = some vs := by
    rw [alookup_foldl_aremove_ne _ _ (fun c hc => h7 c (List.mem_reverse.mp hc))]
    exact h1
  have hmain : rollback_migration migColl v s = (.ok (),
      ⟨cfgs.reverse.foldl (fun l cfg => aremove l cfg.name) s.collections,
       ainsert (cfgs.reverse.foldl (fun l cfg => aremove l cfg.name) s.vectors)
         migColl (aremove vs (versionToString v))⟩) := by
    simp only [rollback_migration, hrec, h5, Bool.not_true, Bool.false_eq_true,
      if_false, hrev, mockDeleteVector, hlook]
  refine ⟨hmain, ?_, ?_⟩
  · intro cfg hcfg
    rw [hmain]
    exact alookup_foldl_aremove_mem _ _ ⟨cfg, List.mem_reverse.mpr hcfg, rfl⟩
  · rw [hmain]
    have hrec2 : get_migration_record migColl v
        ⟨cfgs.reverse.foldl (fun l cfg => aremove l cfg.name) s.collections,
         ainsert (cfgs.reverse.foldl (fun l cfg => aremove l cfg.name) s.vectors)
           migColl (aremove vs (versionToString v))⟩ =
        (.error (.notFound "migration" (versionToString v)),
         ⟨cfgs.reverse.foldl (fun l cfg => aremove l cfg.name) s.collections,
          ainsert (cfgs.reverse.foldl (fun l cfg => aremove l cfg.name) s.vectors)
            migColl (aremove vs (versionToString v))⟩) := by
      simp only [get_migration_record, mockGetVector, alookup_ainsert_self,
        alookup_aremove_self]
    simp only [rollback_migration, hrec2]

/-- A concrete non-reversible migration for the C7 witness. -/
def c7mig : SchemaMigration :=
  { version := ⟨2, 0, 0⟩, name := "drop"
  , collection_changes := [.DeleteCollection "old"]
  , metadata := { author := "a", created_at := "t", description := "d"
                , dependencies := [], reversible := false, breaking_change := true }
  , pact_contracts := [] }

/-- The persisted history record of `c7mig`. -/
def c7vec : Vector :=
  ⟨"2.0.0", List.replicate 256 0,
   [("migration", encodeMigration c7mig), ("type", Json.str "schema_migration")]⟩

/-- A backend state whose history collection holds exactly `c7mig`. -/
def c7state : Backend :=
  ⟨[("_tyl_migrations", ⟨"_tyl_migrations", 256, .Cosine⟩)],
   [("_tyl_migrations", [("2.0.0", c7vec)])]⟩

theorem c7_rollback_nonreversible_witness :
    (alookup c7state.vectors "_tyl_migrations" = some [("2.0.0", c7vec)] ∧
     alookup [("2.0.0", c7vec)] (versionToString ⟨2, 0, 0⟩) = some c7vec ∧
     alookup c7vec.metadata "migration" = some (encodeMigration c7mig) ∧
     decodeMigration (encodeMigration c7mig) = .ok c7mig ∧
     c7mig.metadata.reversible = false) ∧
    rollback_migration "_tyl_migrations" ⟨2, 0, 0⟩ c7state =
      (.error (.validation "rollback"
        ("Migration " ++ versionToString ⟨2, 0, 0⟩ ++ " is not reversible")), c7state) := by
  refine ⟨⟨rfl, rfl, rfl, rfl, rfl⟩, ?_⟩
  exact c7_rollback_nonreversible "_tyl_migrations" ⟨2, 0, 0⟩ c7state c7mig
    [("2.0.0", c7vec)] c7vec (encodeMigration c7mig) rfl rfl rfl rfl rfl

/-- A concrete reversible create-only migration for the C6 witness. -/
def c6mig : SchemaMigration :=
  { version := ⟨1, 0, 0⟩, name := "init"
  , collection_changes := [.CreateCollection ⟨"docs", 768, .Cosine⟩]
  , metadata := { author := "a", created_at := "t", description := "d"
                , dependencies := [], reversible := true, breaking_change := false }
  , pact_contracts := [] }

/-- The persisted history record of `c6mig`. -/
def c6vec : Vector :=
  ⟨"1.0.0", List.replicate 256 0,
   [("migration", encodeMigration c6mig), ("type", Json.str "schema_migration")]⟩

/-- A backend state where `c6mig` has been applied: the docs collection
exists and the history collection holds its record. -/
def c6state : Backend :=
  ⟨[("_tyl_migrations", ⟨"_tyl_migrations", 256, .Cosine⟩), ("docs", ⟨"docs", 768, .Cosine⟩)],
   [("_tyl_migrations", [("1.0.0", c6vec)]), ("docs", [])]⟩

theorem c6_rollback_reversible_creates_witness :
    (alookup c6state.vectors "_tyl_migrations" = some [("1.0.0", c6vec)] ∧
     alookup [("1.0.0", c6vec)] (versionToString ⟨1, 0, 0⟩) = some c6vec ∧
     alookup c6vec.metadata "migration" = some (encodeMigration c6mig) ∧
     decodeMigration (encodeMigration c6mig) = .ok c6mig ∧
     c6mig.metadata.reversible = true ∧
     c6mig.collection_changes =
       [CollectionConfig.mk "docs" 768 .Cosine].map CollectionChange.CreateCollection ∧
     (∀ cfg ∈ [CollectionConfig.mk "docs" 768 .Cosine], cfg.name ≠ "_tyl_migrations")) ∧
    (rollback_migration "_tyl_migrations" ⟨1, 0, 0⟩ c6state).1 = .ok () ∧
    alookup (rollback_migration "_tyl_migrations" ⟨1, 0, 0⟩ c6state).2.collections
      "docs" = none ∧
    (rollback_migration "_tyl_migrations" ⟨1, 0, 0⟩
      (rollback_migration "_tyl_migrations" ⟨1, 0, 0⟩ c6state).2).1 =
      .error (.notFound "migration" (versionToString ⟨1, 0, 0⟩)) := by
  have h := c6_rollback_reversible_creates "_tyl_migrations" ⟨1, 0, 0⟩ c6state c6mig
    [("1.0.0", c6vec)] c6vec (encodeMigration c6mig) [⟨"docs", 768, .Cosine⟩]
    rfl rfl rfl rfl rfl rfl (by decide)
  refine ⟨⟨rfl, rfl, rfl, rfl, rfl, rfl, by decide⟩, ?_, ?_, h.2.2⟩
  · rw [h.1]
  · exact h.2.1 ⟨"docs", 768, .Cosine⟩ (List.mem_singleton.mpr rfl)

/-! ### C2: missing dependency fails validation -/

theorem get_migration_history_snd (migColl : String) (s : Backend) :
    (get_migration_history migColl s).2 = s := by
  simp only [get_migration_history, mockSearchSimilar]
  cases alookup s.vectors migColl <;> rfl

theorem firstMissing_of_missing (deps applied : List Version)
    (h : ∃ d ∈ deps, d ∉ applied) : ∃ d, firstMissing deps applied = some d := by
  induction deps with
  | nil =>
    rcases h with ⟨d, hd, _⟩
    cases hd
  | cons d0 rest ih =>
    by_cases h0 : d0 ∈ applied
    · rcases h with ⟨d, hd, hna⟩
      rcases List.mem_cons.mp hd with h1 | h2
      · exact absurd (h1 ▸ h0) hna
      · rcases ih ⟨d, h2, hna⟩ with ⟨d', hd'⟩
        exact ⟨d', by simp [firstMissing, h0, hd']⟩
    · exact ⟨d0, by simp [firstMissing, h0]⟩

/-- C2 (amended).  For every migration with an empty pact-contract list
whose metadata lists a dependency version not present in the readable
persisted history, `apply_migration` fails with the missing-dependency
validation error and performs no mutation at all: the backend state is
returned exactly as it was.  (The restriction to contract-free migrations is
forced by the counterexample: contract validation runs before dependency
validation and issues real backend calls.) -/
theorem c2_missing_dependency_no_mutation (migColl : String) (m : SchemaMigration)
    (s : Backend) (hist : List SchemaMigration)
    (hc : m.pact_contracts = [])
    (hh : (get_migration_history migColl s).1 = .ok hist)
    (hmiss : ∃ d ∈ m.metadata.dependencies, d ∉ hist.map (·.version)) :
    ∃ d, apply_migration migColl m s =
      (.error (.validation "dependencies"
        ("Required migration " ++ versionToString d ++ " not found")), s) := by
  have hpair : get_migration_history migColl s = (.ok hist, s) :=
    Prod.ext_iff.mpr ⟨hh, get_migration_history_snd migColl s⟩
  rcases firstMissing_of_missing _ _ hmiss with ⟨d, hd⟩
  refine ⟨d, ?_⟩
  simp only [apply_migration, hc, validate_pact_contracts, validate_dependencies,
    hpair, hd]

/-- The backend state for the C2 scenario: the history collection exists and
is empty, and no other collection exists. -/
def c2state : Backend :=
  ⟨[("_tyl_migrations", ⟨"_tyl_migrations", 256, .Cosine⟩)], [("_tyl_migrations", [])]⟩

/-- A pact contract whose single interaction expects collection creation to
succeed. -/
def c2contract : PactContract :=
  { consumer := "svc", provider := "qdrant-adapter", contract_path := "pacts/svc.json"
  , interactions := [{ description := "create documents collection"
                     , request := { operation := .CreateCollection
                                  , collection := "documents", parameters := Json.null }
                     , response := { status := .Success, data := none, error := none } }] }

/-- A migration carrying `c2contract` and depending on the unapplied version
1.0.0. -/
def c2mig : SchemaMigration :=
  { version := ⟨1, 1, 0⟩, name := "second"
  , collection_changes := []
  , metadata := { author := "a", created_at := "t", description := "d"
                , dependencies := [⟨1, 0, 0⟩], reversible := true, breaking_change := false }
  , pact_contracts := [c2contract] }

/-- C2.  The claim — that a migration with a missing dependency fails with
the missing-dependency error *and mutates no collection* — is false for
migrations carrying pact contracts: contract validation runs before
dependency validation (src/migration.rs:209-214) and its CreateCollection
interaction issues a real `create_collection("test_migration", ..)` call
(src/migration.rs:349-354).  At this concrete input, `apply_migration` does
fail with the missing-dependency error, yet the backend afterwards contains
a `test_migration` collection that was not there before. -/
theorem c2_counterexample :
    (apply_migration "_tyl_migrations" c2mig c2state).1 =
      .error (.validation "dependencies" "Required migration 1.0.0 not found") ∧
    alookup c2state.collections "test_migration" = none ∧
    alookup (apply_migration "_tyl_migrations" c2mig c2state).2.collections
      "test_migration" = some ⟨"test_migration", 128, .Cosine⟩ := by
  have happly : apply_migration "_tyl_migrations" c2mig c2state =
      (.error (.validation "dependencies" "Required migration 1.0.0 not found"),
       ⟨[("_tyl_migrations", ⟨"_tyl_migrations", 256, .Cosine⟩),
         ("test_migration", ⟨"test_migration", 128, .Cosine⟩)],
        [("_tyl_migrations", []), ("test_migration", [])]⟩) := by
    have hpact : validate_pact_contracts c2mig.pact_contracts c2state = (.ok (),
        ⟨[("_tyl_migrations", ⟨"_tyl_migrations", 256, .Cosine⟩),
          ("test_migration", ⟨"test_migration", 128, .Cosine⟩)],
         [("_tyl_migrations", []), ("test_migration", [])]⟩) := rfl
    have hh : get_migration_history "_tyl_migrations"
        ⟨[("_tyl_migrations", ⟨"_tyl_migrations", 256, .Cosine⟩),
          ("test_migration", ⟨"test_migration", 128, .Cosine⟩)],
         [("_tyl_migrations", []), ("test_migration", [])]⟩ = (.ok [],
        ⟨[("_tyl_migrations", ⟨"_tyl_migrations", 256, .Cosine⟩),
          ("test_migration", ⟨"test_migration", 128, .Cosine⟩)],
         [("_tyl_migrations", []), ("test_migration", [])]⟩) := by
      simp [get_migration_history, mockSearchSimilar, alookup, mockSearchGo,
        SearchParams.with_limit, List.mergeSort_nil]
    simp only [apply_migration, hpact, validate_dependencies, hh, firstMissing]
    norm_num [versionToString, firstMissing]
    decide
  refine ⟨?_, rfl, ?_⟩
  · rw [happly]
  · rw [happly]
    rfl

/-- A contract-free migration depending on the unapplied version 1.0.0,
for the C2 amended-claim witness. -/
def c2migNoPact : SchemaMigration :=
  { version := ⟨1, 1, 0⟩, name := "second"
  , collection_changes := [.CreateCollection ⟨"analytics", 512, .DotProduct⟩]
  , metadata := { author := "a", created_at := "t", description := "d"
                , dependencies := [⟨1, 0, 0⟩], reversible := true, breaking_change := false }
  , pact_contracts := [] }

theorem c2_missing_dependency_no_mutation_witness :
    (c2migNoPact.pact_contracts = [] ∧
     (get_migration_history "_tyl_migrations" c2state).1 = .ok [] ∧
     (∃ d ∈ c2migNoPact.metadata.dependencies,
       d ∉ ([] : List SchemaMigration).map (·.version))) ∧
    ∃ d, apply_migration "_tyl_migrations" c2migNoPact c2state =
      (.error (.validation "dependencies"
        ("Required migration " ++ versionToString d ++ " not found")), c2state) := by
  have hh : (get_migration_history "_tyl_migrations" c2state).1 = .ok [] := by
    simp [get_migration_history, mockSearchSimilar, alookup, mockSearchGo,
      SearchParams.with_limit, List.mergeSort_nil, c2state]
  have hmiss : ∃ d ∈ c2migNoPact.metadata.dependencies,
      d ∉ ([] : List SchemaMigration).map (·.version) :=
    ⟨⟨1, 0, 0⟩, by decide, by simp⟩
  exact ⟨⟨rfl, hh, hmiss⟩,
    c2_missing_dependency_no_mutation "_tyl_migrations" c2migNoPact c2state [] rfl hh hmiss⟩

/-! ### C3: migration history read -/

theorem versionLe_iff (a b : Version) : versionLe a b = true ↔
    (a.major < b.major ∨ (a.major = b.major ∧ (a.minor < b.minor ∨
      (a.minor = b.minor ∧ a.patch ≤ b.patch)))) := by
  unfold versionLe
  by_cases h1 : a.major = b.major <;> by_cases h2 : a.minor = b.minor <;>
    simp [h1, h2]

theorem versionLe_trans (a b c : Version) (h1 : versionLe a b = true)
    (h2 : versionLe b c = true) : versionLe a c = true := by
  rw [versionLe_iff] at *
  omega

theorem versionLe_total (a b : Version) : (versionLe a b || versionLe b a) = true := by
  rw [Bool.or_eq_true, versionLe_iff, versionLe_iff]
  omega

/-- With no filters, the mock search loop returns the first `limit - cnt`
records (every record matches). -/
theorem mockSearchGo_nofilter (limit : Nat) (l : List Vector) :
    ∀ cnt : Nat, cnt < limit →
      mockSearchGo [] limit cnt l =
        (l.take (limit - cnt)).map (fun v => ⟨v, (9 : ℚ) / 10⟩) := by
  induction l with
  | nil =>
    intro cnt _
    simp [mockSearchGo]
  | cons v rest ih =>
    intro cnt h
    simp only [mockSearchGo, matchesFilter, List.all_nil, if_true]
    by_cases hl : cnt + 1 ≥ limit
    · rw [if_pos hl]
      have h1 : limit - cnt = 1 := by omega
      simp [h1]
    · rw [if_neg hl, ih (cnt + 1) (by omega)]
      have h2 : limit - cnt = (limit - (cnt + 1)) + 1 := by omega
      rw [h2]
      simp

theorem filterMap_eq_map_of_some {f : α → Option β} {g : α → β} (l : List α)
    (h : ∀ a ∈ l, f a = some (g a)) : l.filterMap f = l.map g := by
  induction l with
  | nil => rfl
  | cons a rest ih =>
    rw [List.filterMap_cons, h a (List.mem_cons_self _ _), List.map_cons,
      ih (fun x hx => h x (List.mem_cons_of_mem _ hx))]

/-- C3 (amended).  For every state in which the reserved history collection
is readable, `get_migration_history` succeeds without mutating the backend
and returns exactly the deserializable migration records among the **first
1000** records of the collection (the read is issued with limit 1000, so
anything beyond that cap is silently missing), sorted by version
ascending. -/
theorem c3_history_capped_sorted (migColl : String) (s : Backend)
    (vs : List (String × Vector)) (h : alookup s.vectors migColl = some vs) :
    ∃ L, get_migration_history migColl s = (.ok L, s) ∧
      L.Perm (((vs.map (·.2)).take 1000).filterMap decodeRecord) ∧
      L.Pairwise (fun a b => versionLe a.version b.version = true) := by
  refine ⟨(((vs.map (·.2)).take 1000).filterMap decodeRecord).mergeSort
      (fun a b => versionLe a.version b.version), ?_, ?_, ?_⟩
  · simp only [get_migration_history, mockSearchSimilar, h, SearchParams.with_limit]
    rw [mockSearchGo_nofilter 1000 (vs.map (·.2)) 0 (by omega)]
    have heq : (((vs.map (·.2)).take (1000 - 0)).map
        (fun v => (⟨v, (9 : ℚ) / 10⟩ : VectorSearchResult))).filterMap
        (fun r => decodeRecord r.vector) =
        ((vs.map (·.2)).take 1000).filterMap decodeRecord := by
      rw [List.filterMap_map]
      rfl
    rw [heq]
  · exact List.mergeSort_perm _ _
  · exact List.sorted_mergeSort
      (fun a b c hab hbc => versionLe_trans a.version b.version c.version hab hbc)
      (fun a b => versionLe_total a.version b.version) _

/-- The version `i.0.0`, used to build a large history. -/
def mkVersion (i : Nat) : Version := ⟨i, 0, 0⟩

/-- A minimal well-formed migration at version `i.0.0`. -/
def mkMig (i : Nat) : SchemaMigration :=
  { version := mkVersion i, name := "m"
  , collection_changes := []
  , metadata := { author := "a", created_at := "t", description := ""
                , dependencies := [], reversible := true, breaking_change := false }
  , pact_contracts := [] }

/-- The persisted history record of `mkMig i`, exactly as `record_migration`
would store it. -/
def mkRec (i : Nat) : String × Vector :=
  (versionToString (mkVersion i),
   ⟨versionToString (mkVersion i), List.replicate 256 0,
    [("migration", encodeMigration (mkMig i)), ("type", Json.str "schema_migration")]⟩)

theorem decodeNat_natCast (n : Nat) : decodeNat (Json.num (.int (n : Int))) = .ok n := by
  simp [decodeNat, Int.natCast_nonneg, Int.toNat_natCast]

theorem decodeVersion_encodeVersion (v : Version) :
    decodeVersion (encodeVersion v) = .ok v := by
  obtain ⟨ma, mi, pa⟩ := v
  simp [decodeVersion, encodeVersion, asObj, getField, objGet, decodeNat_natCast,
    Except.bind, bind, pure, Except.pure]

theorem decode_encode_mkMig (i : Nat) :
    decodeMigration (encodeMigration (mkMig i)) = .ok (mkMig i) := by
  simp [decodeMigration, encodeMigration, mkMig, mkVersion, asObj, getField, objGet,
    asArr, decodeStr, decodeBool, decodeMetadata, encodeMetadata, decodeVersion,
    encodeVersion, decodeNat, Int.natCast_nonneg, Int.toNat_natCast,
    Except.bind, bind, pure, Except.pure, List.mapM.loop]

theorem decodeRecord_mkRec (i : Nat) : decodeRecord (mkRec i).2 = some (mkMig i) := by
  simp [decodeRecord, mkRec, alookup, decode_encode_mkMig, Except.toOption]

/-- A backend state whose reserved history collection holds 1001 well-formed
migration records, versions `0.0.0` through `1000.0.0`. -/
def c3state : Backend :=
  ⟨[("_tyl_migrations", ⟨"_tyl_migrations", 256, .Cosine⟩)],
   [("_tyl_migrations", (List.range 1001).map mkRec)]⟩

/-- C3.  The claim — that `get_migration_history` returns **every** record
persisted in the reserved collection with **no count cap** — is false: the
read is issued with `SearchParams::with_limit(1000)` (src/migration.rs:258),
so a history of 1001 records loses one.  At this concrete state holding the
1001 records `0.0.0 .. 1000.0.0`, the record of version `1000.0.0` is
present and deserializable, yet the returned history is exactly the 1000
migrations `0.0.0 .. 999.0.0` and omits it. -/
theorem c3_counterexample :
    (get_migration_history "_tyl_migrations" c3state).1 =
      .ok ((List.range 1000).map mkMig) ∧
    ((alookup c3state.vectors "_tyl_migrations").getD []).length = 1001 ∧
    mkRec 1000 ∈ (alookup c3state.vectors "_tyl_migrations").getD [] ∧
    decodeRecord (mkRec 1000).2 = some (mkMig 1000) ∧
    mkMig 1000 ∉ (List.range 1000).map mkMig := by
  have hlook : alookup c3state.vectors "_tyl_migrations" =
      some ((List.range 1001).map mkRec) := rfl
  have htake : (((List.range 1001).map mkRec).map (·.2)).take 1000 =
      (List.range 1000).map (fun i => (mkRec i).2) := by
    rw [List.map_map, ← List.map_take, List.take_range]
    norm_num
  have hfm : ((List.range 1000).map (fun i => (mkRec i).2)).filterMap decodeRecord =
      (List.range 1000).map mkMig := by
    rw [List.filterMap_map]
    exact filterMap_eq_map_of_some _ (fun a _ => decodeRecord_mkRec a)
  have hsorted : ((List.range 1000).map mkMig).Pairwise
      (fun a b => versionLe a.version b.version = true) := by
    refine (List.pairwise_lt_range 1000).map mkMig ?_
    intro a b hab
    rw [versionLe_iff]
    left
    simpa [mkMig, mkVersion] using hab
  have hhist : (get_migration_history "_tyl_migrations" c3state).1 =
      .ok ((List.range 1000).map mkMig) := by
    simp only [get_migration_history, mockSearchSimilar, hlook, SearchParams.with_limit]
    rw [mockSearchGo_nofilter 1000 _ 0 (by omega)]
    simp only [List.filterMap_map]
    have : ((((List.range 1001).map mkRec).map (·.2)).take (1000 - 0)).filterMap
        ((fun r => decodeRecord r.vector) ∘ (fun v => (⟨v, (9 : ℚ) / 10⟩ : VectorSearchResult))) =
        (List.range 1000).map mkMig := by
      have hcomp : ((fun r => decodeRecord r.vector) ∘
          (fun v => (⟨v, (9 : ℚ) / 10⟩ : VectorSearchResult))) = decodeRecord := rfl
      rw [hcomp]
      rw [show 1000 - 0 = 1000 from rfl, htake, hfm]
    rw [this, List.mergeSort_of_sorted hsorted]
  refine ⟨hhist, ?_, ?_, decodeRecord_mkRec 1000, ?_⟩
  · rw [hlook]
    simp
  · rw [hlook]
    simp only [Option.getD_some]
    exact List.mem_map_of_mem mkRec (List.mem_range.mpr (by norm_num))
  · intro hmem
    rcases List.mem_map.mp hmem with ⟨i, hi, heq⟩
    have : i = 1000 := congrArg (fun m => m.version.major) heq
    rw [this] at hi
    exact absurd (List.mem_range.mp hi) (by omega)

/-- A tiny backend state for the C3 amended-claim witness: one persisted
record. -/
def c3small : Backend :=
  ⟨[("_tyl_migrations", ⟨"_tyl_migrations", 256, .Cosine⟩)],
   [("_tyl_migrations", [mkRec 1])]⟩

theorem c3_history_capped_sorted_witness :
    alookup c3small.vectors "_tyl_migrations" = some [mkRec 1] ∧
    ∃ L, get_migration_history "_tyl_migrations" c3small = (.ok L, c3small) ∧
      L.Perm ((([mkRec 1].map (·.2)).take 1000).filterMap decodeRecord) ∧
      L.Pairwise (fun a b => versionLe a.version b.version = true) :=
  ⟨rfl, c3_history_capped_sorted "_tyl_migrations" c3small [mkRec 1] rfl⟩

theorem c1_ne_silently_dropped_witness :
    objContains [("$ne", Json.str "x")] "$ne" = true ∧
    objContains [("$ne", Json.str "x")] "$gte" = false ∧
    objContains [("$ne", Json.str "x")] "$lte" = false ∧
    objContains [("$ne", Json.str "x")] "$gt" = false ∧
    objContains [("$ne", Json.str "x")] "$lt" = false ∧
    objContains [("$ne", Json.str "x")] "$in" = false ∧
    build_filter ⟨5, none, [("f", Json.obj [("$ne", Json.str "x")])], false⟩ = none := by
  refine ⟨rfl, rfl, rfl, rfl, rfl, rfl, ?_⟩
  exact (c1_ne_silently_dropped "f" [("$ne", Json.str "x")] rfl rfl rfl rfl rfl rfl).2.2
    ⟨5, none, [("f", Json.obj [("$ne", Json.str "x")])], false⟩ rfl

end TylQdrant
